import Mathlib

/-!
Shallow embedding of the mmpy-tools MySQL wrapper
(source file src/mmpy_tools/MySQL.py).

Python strings are modelled as lists of characters.  The string-building
logic of the MySQL class is translated into pure Lean functions, and the
statement-executing methods into lists of attempted statements together
with an error oracle standing for the database backend.
-/

namespace MmpyTools

/-- Python strings are modelled as lists of characters. -/
abbrev Str := List Char

/-- The single-quote character, written via its code point. -/
def sq : Char := Char.ofNat 39

/-- The backtick character, written via its code point. -/
def bt : Char := Char.ofNat 96

/-- Fuel-indexed, left-to-right, non-overlapping replacement, mirroring the
Python string replace method for a non-empty pattern `p :: ps`.  The fuel is
always instantiated with the length of the scanned string. -/
def replaceFuel (p : Char) (ps rep : Str) : Nat → Str → Str
  | 0, s => s
  | _ + 1, [] => []
  | fuel + 1, c :: rest =>
    if (p :: ps).isPrefixOf (c :: rest) then
      rep ++ replaceFuel p ps rep fuel (rest.drop ps.length)
    else
      c :: replaceFuel p ps rep fuel rest

/-- Python `s.replace(pat, rep)` for the non-empty pattern `p :: ps`. -/
def replaceL (p : Char) (ps rep s : Str) : Str :=
  replaceFuel p ps rep s.length s

theorem replaceFuel_nil (p : Char) (ps rep : Str) (n : Nat) :
    replaceFuel p ps rep n [] = [] := by
  cases n <;> rfl

theorem replaceFuel_stable (p : Char) (ps rep : Str) :
    ∀ m n s, s.length ≤ m → s.length ≤ n →
      replaceFuel p ps rep m s = replaceFuel p ps rep n s := by
  intro m
  induction m with
  | zero =>
    intro n s hm _
    have hs : s = [] := List.eq_nil_of_length_eq_zero (Nat.le_zero.mp hm)
    subst hs
    simp [replaceFuel_nil]
  | succ m ih =>
    intro n s hm hn
    cases s with
    | nil => simp [replaceFuel_nil]
    | cons c rest =>
      cases n with
      | zero => simp at hn
      | succ n =>
        simp only [replaceFuel]
        split
        · congr 1
          apply ih
          · simp only [List.length_drop]
            simp only [List.length_cons] at hm
            omega
          · simp only [List.length_drop]
            simp only [List.length_cons] at hn
            omega
        · congr 1
          apply ih
          · simp only [List.length_cons] at hm; omega
          · simp only [List.length_cons] at hn; omega

/-- Single unfolding step of `replaceL`, mirroring one step of the scan. -/
theorem replaceL_cons (p : Char) (ps rep : Str) (c : Char) (s : Str) :
    replaceL p ps rep (c :: s) =
      if (p :: ps).isPrefixOf (c :: s) then
        rep ++ replaceL p ps rep (s.drop ps.length)
      else
        c :: replaceL p ps rep s := by
  simp only [replaceL, List.length_cons, replaceFuel]
  by_cases h : (p :: ps).isPrefixOf (c :: s) = true
  · simp only [h, if_true]
    congr 1
    exact replaceFuel_stable p ps rep s.length (s.drop ps.length).length _
      (by simp [List.length_drop]) (Nat.le_refl _)
  · simp [h]

theorem replaceL_nil (p : Char) (ps rep : Str) : replaceL p ps rep [] = [] := rfl

theorem bool_eq_false {b : Bool} (h : ¬ b = true) : b = false := by
  cases b
  · rfl
  · exact absurd rfl h

theorem nil_isPrefixOf (l : Str) : ([] : Str).isPrefixOf l = true := by
  cases l <;> rfl

theorem isPrefixOf_cons_ne (p : Char) (ps : Str) (c : Char) (s : Str) (h : c ≠ p) :
    (p :: ps).isPrefixOf (c :: s) = false := by
  show (p == c && ps.isPrefixOf s) = false
  have hpc : (p == c) = false := by
    simp [Ne.symm h]
  simp [hpc]

theorem replaceL_cons_ne (p : Char) (ps rep : Str) (c : Char) (s : Str) (h : c ≠ p) :
    replaceL p ps rep (c :: s) = c :: replaceL p ps rep s := by
  rw [replaceL_cons, isPrefixOf_cons_ne p ps c s h]
  simp

/-- A pattern is a prefix of itself followed by anything. -/
theorem isPrefixOf_self_append (l t : Str) : l.isPrefixOf (l ++ t) = true := by
  induction l with
  | nil => exact nil_isPrefixOf _
  | cons a as ih =>
    show (a == a && as.isPrefixOf (as ++ t)) = true
    simp [ih]

theorem replaceL_head_match (p : Char) (ps rep t : Str) :
    replaceL p ps rep ((p :: ps) ++ t) = rep ++ replaceL p ps rep t := by
  rw [List.cons_append, replaceL_cons]
  have : (p :: ps).isPrefixOf (p :: (ps ++ t)) = true := isPrefixOf_self_append _ _
  rw [this]
  simp [List.drop_left]

/-- Characters distinct from the pattern head are copied through unchanged. -/
theorem replaceL_skip (p : Char) (ps rep : Str) :
    ∀ A s, p ∉ A → replaceL p ps rep (A ++ s) = A ++ replaceL p ps rep s := by
  intro A
  induction A with
  | nil => intro s _; rfl
  | cons a A ih =>
    intro s hA
    have ha : a ≠ p := by
      intro h; exact hA (by simp [h])
    have hA' : p ∉ A := by
      intro h; exact hA (by simp [h])
    rw [List.cons_append, replaceL_cons_ne p ps rep a _ ha, ih s hA']
    rfl

/-- A string avoiding the pattern head is left unchanged. -/
theorem replaceL_id (p : Char) (ps rep : Str) (s : Str) (h : p ∉ s) :
    replaceL p ps rep s = s := by
  have := replaceL_skip p ps rep s [] h
  simpa [replaceL_nil] using this

/-- A prefix match survives extending the scanned string on the right. -/
theorem isPrefixOf_append_right (l : Str) :
    ∀ X W, l.isPrefixOf X = true → l.isPrefixOf (X ++ W) = true := by
  induction l with
  | nil => intro X W _; exact nil_isPrefixOf _
  | cons a as ih =>
    intro X W h
    cases X with
    | nil => simp [List.isPrefixOf] at h
    | cons x xs =>
      have h' : (a == x && as.isPrefixOf xs) = true := h
      simp only [Bool.and_eq_true] at h'
      show (a == x && as.isPrefixOf (xs ++ W)) = true
      simp [h'.1, ih xs W h'.2]

/-- If a pattern avoiding `sep` matches across `X ++ sep :: Y`, the match is
contained in `X`. -/
theorem isPrefixOf_split (sep : Char) :
    ∀ (l X Y : Str), sep ∉ l → l.isPrefixOf (X ++ sep :: Y) = true →
      ∃ Z, X = l ++ Z := by
  intro l
  induction l with
  | nil => intro X Y _ _; exact ⟨X, rfl⟩
  | cons q qs ih =>
    intro X Y hsep h
    cases X with
    | nil =>
      exfalso
      have h' : (q == sep && qs.isPrefixOf Y) = true := h
      simp only [Bool.and_eq_true, beq_iff_eq] at h'
      exact hsep (by simp [h'.1])
    | cons x xs =>
      have h' : (q == x && qs.isPrefixOf (xs ++ sep :: Y)) = true := h
      simp only [Bool.and_eq_true, beq_iff_eq] at h'
      have hsep' : sep ∉ qs := by
        intro hmem; exact hsep (by simp [hmem])
      obtain ⟨Z, hZ⟩ := ih xs Y hsep' h'.2
      exact ⟨Z, by simp [h'.1, hZ]⟩

/-- Replacement distributes across a separator character that does not occur
in the pattern: no match can span the separator. -/
theorem replaceL_append_sep (p : Char) (ps rep : Str) (sep : Char)
    (hsep : sep ∉ p :: ps) :
    ∀ A B, replaceL p ps rep (A ++ sep :: B) =
      replaceL p ps rep A ++ sep :: replaceL p ps rep B := by
  have key : ∀ n A B, A.length ≤ n →
      replaceL p ps rep (A ++ sep :: B) =
        replaceL p ps rep A ++ sep :: replaceL p ps rep B := by
    intro n
    induction n with
    | zero =>
      intro A B hA
      have hAnil : A = [] := List.eq_nil_of_length_eq_zero (Nat.le_zero.mp hA)
      subst hAnil
      have hps : sep ≠ p := by
        intro h; exact hsep (by simp [h])
      rw [List.nil_append, replaceL_cons_ne p ps rep sep B hps, replaceL_nil]
      rfl
    | succ n ih =>
      intro A B hA
      cases A with
      | nil =>
        have hps : sep ≠ p := by
          intro h; exact hsep (by simp [h])
        rw [List.nil_append, replaceL_cons_ne p ps rep sep B hps, replaceL_nil]
        rfl
      | cons a A0 =>
        by_cases hm : (p :: ps).isPrefixOf (a :: A0 ++ sep :: B) = true
        · obtain ⟨Z, hZ⟩ := isPrefixOf_split sep (p :: ps) (a :: A0) B hsep hm
          rw [List.cons_append, replaceL_cons]
          have hm' : (p :: ps).isPrefixOf (a :: (A0 ++ sep :: B)) = true := by
            rw [← List.cons_append]; exact hm
          rw [hm']
          simp only [if_true]
          have hA0 : A0 = ps ++ Z := by
            have := hZ
            simp only [List.cons_append] at this
            exact (List.cons.injEq a A0 p (ps ++ Z)).mp this |>.2
          have hdrop : (A0 ++ sep :: B).drop ps.length = Z ++ sep :: B := by
            rw [hA0, List.append_assoc, List.drop_left]
          rw [hdrop]
          have hZlen : Z.length ≤ n := by
            have : (a :: A0).length ≤ n + 1 := hA
            simp only [List.length_cons, hA0, List.length_append] at this
            omega
          rw [ih Z B hZlen, hZ, replaceL_head_match]
          simp
        · rw [List.cons_append, replaceL_cons]
          have hm' : (p :: ps).isPrefixOf (a :: (A0 ++ sep :: B)) = false := by
            rw [← List.cons_append]
            exact bool_eq_false hm
          rw [hm']
          simp only [Bool.false_eq_true, if_false]
          have hA0len : A0.length ≤ n := by
            simp only [List.length_cons] at hA; omega
          rw [ih A0 B hA0len]
          have hm2 : (p :: ps).isPrefixOf (a :: A0) = false := by
            apply bool_eq_false
            intro h
            exact hm (isPrefixOf_append_right (p :: ps) (a :: A0) (sep :: B) h)
          rw [replaceL_cons, hm2]
          simp only [Bool.false_eq_true, if_false]
          rfl
  intro A B
  exact key A.length A B (Nat.le_refl _)

/-- Python string join: `sep.join(l)`. -/
def interc (s : Str) : List Str → Str
  | [] => []
  | [c] => c
  | c :: c2 :: rest => c ++ s ++ interc s (c2 :: rest)

theorem not_mem_interc (x : Char) (s : Str) :
    ∀ l : List Str, x ∉ s → (∀ c ∈ l, x ∉ c) → x ∉ interc s l := by
  intro l
  induction l with
  | nil => intro _ _ h; exact absurd h (by simp [interc])
  | cons c rest ih =>
    intro hs hl
    cases rest with
    | nil => exact hl c (by simp)
    | cons c2 rest2 =>
      simp only [interc, List.append_assoc, List.mem_append]
      push_neg
      refine ⟨hl c (by simp), hs, ?_⟩
      exact ih hs (fun d hd => hl d (by simp [hd]))

/-! ### SQL statement builders, translated from src/mmpy_tools/MySQL.py -/

/-- `create_db`: the `DROP DATABASE` statement (line 85). -/
def dropDbSQL (n : Str) : Str := "DROP DATABASE `".toList ++ n ++ "`;".toList

/-- `create_db`: the `CREATE DATABASE` statement (line 90). -/
def createDbSQL (n : Str) : Str := "CREATE DATABASE `".toList ++ n ++ "`;".toList

/-- `create_table`: the `DROP TABLE` statement (line 115). -/
def dropTableSQL (t : Str) : Str := "DROP TABLE IF EXISTS `".toList ++ t ++ "`;".toList

/-- `create_table`: one `name definition` fragment of the column clause. -/
def tableFrag (nd : Str × Str) : Str := nd.1 ++ ' ' :: nd.2

/-- `create_table`: the loop accumulating `f"{tablename} {definition},"`
(lines 120-121), starting from the empty accumulator. -/
def createTableBody (defs : List (Str × Str)) : Str :=
  defs.foldl (fun acc nd => acc ++ tableFrag nd ++ [',']) []

/-- `create_table`: the full generated statement (lines 119-122):
`sql = f"CREATE TABLE {table_name} ("` followed by the column loop, then
`sql = sql[0:-1] + ");"`. -/
def createTableSQL (t : Str) (defs : List (Str × Str)) : Str :=
  ("CREATE TABLE ".toList ++ t ++ " (".toList ++ createTableBody defs).dropLast
    ++ ");".toList

/-- `truncate_table` (line 243). -/
def truncateSQL (t : Str) : Str := "TRUNCATE TABLE `".toList ++ t ++ "`;".toList

/-- `query_table` (line 181). -/
def queryTableSQL (t : Str) : Str := "SELECT * from `".toList ++ t ++ "`".toList

/-- `delete_where` (line 286). -/
def deleteWhereSQL (cond t : Str) : Str :=
  "DELETE FROM `".toList ++ t ++ "` WHERE ".toList ++ cond

/-- `update_where` (line 309). -/
def updateWhereSQL (cond t col v : Str) : Str :=
  "UPDATE `".toList ++ t ++ "` SET `".toList ++ col ++ "` = ".toList
    ++ (sq :: v) ++ (sq :: " WHERE ".toList) ++ cond

/-- `update_id` (lines 334-336): the condition passed to `update_where`. -/
def updateIdSQL (idv t col v idCol : Str) : Str :=
  updateWhereSQL (bt :: idCol ++ "` = ".toList ++ (sq :: idv) ++ [sq]) t col v

/-- `delete_id` (line 267): the condition passed to `delete_where`. -/
def deleteIdCond (idCol v : Str) : Str :=
  "((`".toList ++ idCol ++ "` = ".toList ++ (sq :: v) ++ (sq :: "))".toList)

/-! ### The insert path (`insert_table`, lines 219-227) -/

/-- The pandas escaping step `df_insert.replace("'","''",regex=True)`:
every single quote of a (stringified) cell is doubled.  Numeric cells never
contain a quote, so applying the doubling to the stringified value is
extensionally the same as the source's cell-wise replacement. -/
def escSQ (v : Str) : Str := replaceL sq [] [sq, sq] v

/-- The row rendering `"','".join([f'{i}' for i in df_insert.iloc[i].values])`. -/
def valsJoin (row : List Str) : Str := interc (sq :: ',' :: [sq]) (row.map escSQ)

/-- The column clause `"(`" + "`,`".join(df_insert.columns) + "`)"` (line 221). -/
def colsClause (cols : List Str) : Str :=
  "(`".toList ++ interc "`,`".toList cols ++ "`)".toList

/-- The invariant part of each insert statement, up to the opening
parenthesis of the VALUES tuple. -/
def insertHead (t : Str) (cols : List Str) : Str :=
  "INSERT INTO `".toList ++ t ++ "` ".toList ++ colsClause cols
    ++ " VALUES ".toList

/-- The VALUES tuple region after its opening parenthesis: `'{values}');`. -/
def valsTail (row : List Str) : Str :=
  (sq :: valsJoin row) ++ (sq :: ')' :: [';'])

/-- The raw query of line 225: `INSERT INTO `t` (cols) VALUES ('values');`. -/
def insertRowRaw (t : Str) (cols : List Str) (row : List Str) : Str :=
  insertHead t cols ++ '(' :: valsTail row

/-- The replacement `.replace("'nan'","NULL")` of line 226. -/
def replaceNan (s : Str) : Str := replaceL sq ("nan".toList ++ [sq]) "NULL".toList s

/-- The replacement `.replace("'None'","NULL")` of line 226. -/
def replaceNone (s : Str) : Str := replaceL sq ("None".toList ++ [sq]) "NULL".toList s

/-- The statement executed for one row by `insert_table` (lines 225-226). -/
def insertRowQuery (t : Str) (cols : List Str) (row : List Str) : Str :=
  replaceNone (replaceNan (insertRowRaw t cols row))

/-- The statements executed by the loop of `insert_table` (lines 223-226),
one per row, in row order. -/
def insertQueries (t : Str) (cols : List Str) (rows : List (List Str)) : List Str :=
  rows.map (insertRowQuery t cols)

/-- The quoted-literal chunk a single value contributes to the VALUES tuple. -/
def chunkOf (v : Str) : Str := sq :: escSQ v ++ [sq]

/-- What one value's chunk looks like after both sentinel replacements. -/
def renderChunk (v : Str) : Str := replaceNone (replaceNan (chunkOf v))

/-- Sentinel replacement distributes over the comma-separated VALUES tuple:
the patterns contain no comma and no closing punctuation, so no match can
span a chunk boundary. -/
theorem replaceL_interc (p : Char) (ps rep : Str)
    (hc : ',' ∉ p :: ps) (hp : ')' ∉ p :: ps) (hs : ';' ∉ p :: ps) :
    ∀ chunks : List Str,
      replaceL p ps rep (interc [','] chunks ++ ')' :: [';']) =
        interc [','] (chunks.map (replaceL p ps rep)) ++ ')' :: [';'] := by
  have hp1 : p ≠ ')' := fun h => hp (List.mem_cons.mpr (Or.inl h.symm))
  have hs1 : p ≠ ';' := fun h => hs (List.mem_cons.mpr (Or.inl h.symm))
  intro chunks
  induction chunks with
  | nil =>
    simp only [interc, List.map_nil, List.nil_append]
    apply replaceL_id
    simp [List.mem_cons, hp1, hs1]
  | cons c rest ih =>
    cases rest with
    | nil =>
      simp only [interc, List.map_cons, List.map_nil]
      rw [replaceL_append_sep p ps rep ')' hp c [';']]
      have : replaceL p ps rep [';'] = [';'] := by
        apply replaceL_id
        simp [hs1]
      rw [this]
    | cons c2 rest2 =>
      simp only [interc, List.map_cons] at ih ⊢
      have hshape :
          (c ++ [','] ++ interc [','] (c2 :: rest2)) ++ ')' :: [';'] =
            c ++ ',' :: (interc [','] (c2 :: rest2) ++ ')' :: [';']) := by
        simp
      rw [hshape, replaceL_append_sep p ps rep ',' hc c _, ih]
      simp

/-- For a non-empty row, the quoted VALUES region is the comma-separated
concatenation of one quoted chunk per value. -/
theorem chunkize : ∀ row : List Str, row ≠ [] →
    sq :: valsJoin row ++ [sq] = interc [','] (row.map chunkOf) := by
  intro row
  induction row with
  | nil => intro h; exact absurd rfl h
  | cons v rest ih =>
    intro _
    cases rest with
    | nil => simp [valsJoin, interc, chunkOf]
    | cons v2 rest2 =>
      have ih' := ih (by simp)
      simp only [valsJoin, List.map_cons, interc] at ih' ⊢
      rw [← ih']
      simp [chunkOf]

/-- The VALUES tail decomposes into chunks (non-empty row). -/
theorem valsTail_eq_chunks (row : List Str) (hrow : row ≠ []) :
    valsTail row = interc [','] (row.map chunkOf) ++ ')' :: [';'] := by
  rw [← chunkize row hrow]
  unfold valsTail
  simp [List.append_assoc]

/-- The two sentinel replacements of `insert_table` act independently on the
head of the statement and on each value chunk of the VALUES tuple. -/
theorem insertRowQuery_decomp (t : Str) (cols : List Str) (row : List Str)
    (hrow : row ≠ []) :
    insertRowQuery t cols row =
      replaceNone (replaceNan (insertHead t cols)) ++
        '(' :: (interc [','] (row.map renderChunk) ++ ')' :: [';']) := by
  unfold insertRowQuery insertRowRaw
  rw [valsTail_eq_chunks row hrow]
  unfold replaceNan replaceNone
  rw [replaceL_append_sep sq ("nan".toList ++ [sq]) "NULL".toList '('
      (by decide) (insertHead t cols) _]
  rw [replaceL_interc sq ("nan".toList ++ [sq]) "NULL".toList
      (by decide) (by decide) (by decide) (row.map chunkOf)]
  rw [replaceL_append_sep sq ("None".toList ++ [sq]) "NULL".toList '('
      (by decide) _ _]
  rw [replaceL_interc sq ("None".toList ++ [sq]) "NULL".toList
      (by decide) (by decide) (by decide) _]
  simp only [List.map_map]
  rfl

/-- The head of an insert statement contains no single quote when the table
name and the column names contain none. -/
theorem sq_not_mem_insertHead (t : Str) (cols : List Str)
    (ht : sq ∉ t) (hcols : ∀ c ∈ cols, sq ∉ c) :
    sq ∉ insertHead t cols := by
  unfold insertHead colsClause
  intro hmem
  simp only [List.mem_append] at hmem
  rcases hmem with ((((h | h) | h) | ((h | h) | h)) | h)
  · revert h; decide
  · exact ht h
  · revert h; decide
  · revert h; decide
  · exact not_mem_interc sq "`,`".toList cols (by decide) hcols h
  · revert h; decide
  · revert h; decide

/-! ### Execution model

The backend is an oracle `res : Str → Option E` giving, for each statement,
the error it raises, or `none` on success.  Running a list of statements
stops at the first error, like sequential Python calls that raise. -/

/-- Run statements in order; stop at the first raised error.  Returns the
attempted statements and the final outcome. -/
def runStmts {E : Type} (res : Str → Option E) : List Str → List Str × Option E
  | [] => ([], none)
  | s :: rest =>
    match res s with
    | some e => ([s], some e)
    | none =>
      let r := runStmts res rest
      (s :: r.1, r.2)

/-- `create_db` (lines 82-91): with `drop`, the `DROP DATABASE` statement is
attempted inside `try ... except: pass` (its outcome is discarded), then the
`CREATE DATABASE` statement runs in a fresh connection scope. -/
def createDbRun {E : Type} (res : Str → Option E) (n : Str) (drop : Bool) :
    List Str × Option E :=
  if drop then
    let d := runStmts res [dropDbSQL n]
    let c := runStmts res [createDbSQL n]
    (d.1 ++ c.1, c.2)
  else
    runStmts res [createDbSQL n]

/-- `create_table` (lines 112-125): with `drop`, the `DROP TABLE IF EXISTS`
statement is attempted inside `try ... except: pass` (its outcome is
discarded), then the built `CREATE TABLE` statement runs. -/
def createTableRun {E : Type} (res : Str → Option E) (t : Str)
    (defs : List (Str × Str)) (drop : Bool) : List Str × Option E :=
  if drop then
    let d := runStmts res [dropTableSQL t]
    let c := runStmts res [createTableSQL t defs]
    (d.1 ++ c.1, c.2)
  else
    runStmts res [createTableSQL t defs]

/-! ### `execute_sql_file` (lines 162-169) -/

/-- Python `str.split(sep)` for a one-character separator: `"".split(";")`
is `[""]`, and empty fragments are kept. -/
def splitOnChar (c : Char) : Str → List Str
  | [] => [[]]
  | a :: rest =>
    if a = c then [] :: splitOnChar c rest
    else
      match splitOnChar c rest with
      | [] => [[a]]
      | h :: ts => (a :: h) :: ts

/-- Line 166: `command.replace("\n","").replace("\t","")`. -/
def stripNT (s : Str) : Str :=
  replaceL '\t' [] [] (replaceL '\n' [] [] s)

/-- The statements `execute_sql_file` executes, in file order: split on the
semicolon, strip newlines and tabs, keep candidates with `len(command) > 4`. -/
def sqlFileCommands (sql : Str) : List Str :=
  ((splitOnChar ';' sql).map stripNT).filter (fun c => c.length > 4)

/-- An observable action against the backend connection. -/
inductive Action : Type where
  | exec (s : Str) : Action
  | commit : Action
deriving DecidableEq

/-- The trace of `execute_sql_file`: all surviving commands are executed in
one connection scope, then a single commit ends the scope (lines 164-169). -/
def sqlFileTrace (sql : Str) : List Action :=
  (sqlFileCommands sql).map Action.exec ++ [Action.commit]

/-- Modelled from the spec: the spec describes the statement filter as
discarding candidates whose stripped length is less than 5 characters; this
definition follows those words, for comparison with `sqlFileCommands`. -/
def sqlFileCommandsSpec (sql : Str) : List Str :=
  ((splitOnChar ';' sql).map stripNT).filter (fun c => ¬ c.length < 5)

/-! ### `delete_id` (lines 264-267) -/

/-- A scalar Python value passed as an identifier: a string or an integer. -/
inductive PyScalar : Type where
  | str (s : Str) : PyScalar
  | int (n : Int) : PyScalar
deriving DecidableEq

/-- The `id_values` argument of `delete_id`: a scalar or a list of scalars. -/
inductive PyVal : Type where
  | scalar (v : PyScalar) : PyVal
  | list (l : List PyScalar) : PyVal
deriving DecidableEq

/-- The Python f-string rendering `f"{id_value}"` of a scalar. -/
def pyStr : PyScalar → Str
  | .str s => s
  | .int n => (toString n).toList

/-- The dispatch of lines 264-265: a non-iterable value (an integer) or a
string is wrapped into a one-element list; a list is iterated as is. -/
def toIdList : PyVal → List PyScalar
  | .scalar v => [v]
  | .list l => l

/-- The DELETE statements issued by `delete_id` (lines 264-267), one call to
`delete_where` per identifier, in order.  In the source the id column
parameter defaults to the string `id`. -/
def deleteIdStatements (idv : PyVal) (t : Str) (idCol : Str) : List Str :=
  (toIdList idv).map (fun v => deleteWhereSQL (deleteIdCond idCol (pyStr v)) t)

/-! ### `query_sql` (lines 183-191) -/

/-- A pandas DataFrame restricted to what `query_sql` observes: column
names and rows. -/
structure Frame : Type where
  cols : List Str
  rows : List (List Str)
deriving DecidableEq

/-- `query_sql` materializes `pd.DataFrame(query.fetchall())`: the fetched
rows are name-aware tuples, so the constructor derives the column names from
them when at least one row exists; from an empty fetch no names are
derivable and the frame is empty.  `keys` are the cursor's column names,
`fetched` the fetched rows. -/
def querySqlResult (keys : List Str) (fetched : List (List Str)) : Frame :=
  ⟨if fetched = [] then [] else keys, fetched⟩

/-! ### Structure of the `create_table` column clause -/

theorem createTableBody_foldl :
    ∀ (defs : List (Str × Str)) (acc : Str),
      defs.foldl (fun a nd => a ++ tableFrag nd ++ [',']) acc =
        acc ++ createTableBody defs := by
  intro defs
  induction defs with
  | nil => intro acc; simp [createTableBody]
  | cons d ds ih =>
    intro acc
    simp only [createTableBody, List.foldl_cons] at ih ⊢
    rw [ih (acc ++ tableFrag d ++ [',']), ih ([] ++ tableFrag d ++ [','])]
    simp [List.append_assoc]

theorem dropLast_body :
    ∀ defs : List (Str × Str), defs ≠ [] → ∀ H : Str,
      (H ++ createTableBody defs).dropLast =
        H ++ interc [','] (defs.map tableFrag) := by
  intro defs
  induction defs with
  | nil => intro h; exact absurd rfl h
  | cons d ds ih =>
    intro _ H
    cases ds with
    | nil =>
      have hbody : createTableBody [d] = tableFrag d ++ [','] := by
        simp [createTableBody]
      rw [hbody,
        show H ++ (tableFrag d ++ [',']) = (H ++ tableFrag d) ++ [','] by
          simp [List.append_assoc],
        List.dropLast_concat]
      rfl
    | cons d2 ds2 =>
      have hbody : createTableBody (d :: d2 :: ds2) =
          (tableFrag d ++ [',']) ++ createTableBody (d2 :: ds2) := by
        unfold createTableBody
        rw [List.foldl_cons,
          createTableBody_foldl (d2 :: ds2) ([] ++ tableFrag d ++ [','])]
        simp [createTableBody, List.append_assoc]
      rw [hbody,
        show H ++ ((tableFrag d ++ [',']) ++ createTableBody (d2 :: ds2)) =
            (H ++ tableFrag d ++ [',']) ++ createTableBody (d2 :: ds2) by
          simp [List.append_assoc],
        ih (by simp) (H ++ tableFrag d ++ [','])]
      simp [interc, List.append_assoc]

/-! ### The claims -/

/-- C1, counterexample: the statement generated by `create_table` for table
`t` and single column `id int` interpolates both names with no backtick
anywhere, and `update_where` wraps a value containing a single quote in
single quotes without doubling the embedded quote. -/
theorem c1_quoting_counterexample :
    (createTableSQL "t".toList [("id".toList, "int".toList)]).contains bt = false ∧
    createTableSQL "t".toList [("id".toList, "int".toList)] =
      "CREATE TABLE t (id int);".toList ∧
    updateWhereSQL "w".toList "t".toList "c".toList ("a".toList ++ sq :: "b".toList) =
      "UPDATE `t` SET `c` = ".toList ++ (sq :: "a".toList ++ sq :: "b".toList)
        ++ (sq :: " WHERE w".toList) ∧
    (updateWhereSQL "w".toList "t".toList "c".toList ("a".toList ++ sq :: "b".toList) ==
      updateWhereSQL "w".toList "t".toList "c".toList
        (escSQ ("a".toList ++ sq :: "b".toList))) = false := by
  decide

/-- C1, amended: every generated SQL statement wraps interpolated table and
column names in backticks and the insert path doubles embedded single quotes
in values, except that the CREATE statement of `create_table` interpolates
the table name and the column names unquoted, and `update_where`,
`update_id` and `delete_id` wrap their value in single quotes without
doubling embedded quotes. -/
theorem c1_quoting_amended (n t c v cond idv idCol col d : Str) (cols : List Str) :
    createDbSQL n = "CREATE DATABASE `".toList ++ n ++ "`;".toList ∧
    dropDbSQL n = "DROP DATABASE `".toList ++ n ++ "`;".toList ∧
    dropTableSQL t = "DROP TABLE IF EXISTS `".toList ++ t ++ "`;".toList ∧
    truncateSQL t = "TRUNCATE TABLE `".toList ++ t ++ "`;".toList ∧
    queryTableSQL t = "SELECT * from `".toList ++ t ++ "`".toList ∧
    deleteWhereSQL cond t = "DELETE FROM `".toList ++ t ++ "` WHERE ".toList ++ cond ∧
    updateWhereSQL cond t col v =
      "UPDATE `".toList ++ t ++ "` SET `".toList ++ col ++ "` = ".toList
        ++ (sq :: v) ++ (sq :: " WHERE ".toList) ++ cond ∧
    updateIdSQL idv t col v idCol =
      updateWhereSQL (bt :: idCol ++ "` = ".toList ++ (sq :: idv) ++ [sq]) t col v ∧
    deleteIdCond idCol idv =
      "((`".toList ++ idCol ++ "` = ".toList ++ (sq :: idv) ++ (sq :: "))".toList) ∧
    insertHead t cols =
      "INSERT INTO `".toList ++ t ++ "` ".toList ++ colsClause cols
        ++ " VALUES ".toList ∧
    colsClause cols = "(`".toList ++ interc "`,`".toList cols ++ "`)".toList ∧
    escSQ ("a".toList ++ sq :: "b".toList) = "a".toList ++ sq :: sq :: "b".toList ∧
    createTableSQL n [(c, d)] =
      "CREATE TABLE ".toList ++ n ++ " (".toList ++ (c ++ ' ' :: d) ++ ");".toList := by
  refine ⟨rfl, rfl, rfl, rfl, rfl, rfl, rfl, rfl, rfl, rfl, rfl, by decide, ?_⟩
  unfold createTableSQL
  rw [dropLast_body [(c, d)] (by simp) ("CREATE TABLE ".toList ++ n ++ " (".toList)]
  simp [interc, tableFrag]

/-- C2, counterexample: on the empty column mapping, the slicing
`sql[0:-1]` removes the opening parenthesis instead of a trailing comma, so
the generated statement is `CREATE TABLE t );` and not the claimed
parenthesized column clause with zero fragments. -/
theorem c2_empty_defs_counterexample :
    createTableSQL "t".toList [] = "CREATE TABLE t );".toList ∧
    (createTableSQL "t".toList [] ==
      "CREATE TABLE ".toList ++ "t".toList ++ " (".toList
        ++ interc [','] (([] : List (Str × Str)).map tableFrag)
        ++ ");".toList) = false := by
  decide

/-- C2: for every non-empty column-definition mapping, `create_table`
generates a statement whose parenthesized column clause lists the
`name definition` fragments in input order, comma separated, with no
trailing comma before the closing parenthesis. -/
theorem c2_create_table_columns (t : Str) (defs : List (Str × Str))
    (hd : defs ≠ []) :
    createTableSQL t defs =
      "CREATE TABLE ".toList ++ t ++ " (".toList
        ++ interc [','] (defs.map tableFrag) ++ ");".toList := by
  unfold createTableSQL
  rw [dropLast_body defs hd ("CREATE TABLE ".toList ++ t ++ " (".toList)]

/-- C2, witness at a two-column mapping. -/
theorem c2_create_table_columns_witness :
    0 < ([("id".toList, "int".toList), ("name".toList, "varchar(10)".toList)]
        : List (Str × Str)).length ∧
    createTableSQL "t".toList
        [("id".toList, "int".toList), ("name".toList, "varchar(10)".toList)] =
      "CREATE TABLE ".toList ++ "t".toList ++ " (".toList
        ++ interc [','] (([("id".toList, "int".toList),
            ("name".toList, "varchar(10)".toList)] : List (Str × Str)).map tableFrag)
        ++ ");".toList :=
  ⟨by decide, c2_create_table_columns "t".toList _ (by decide)⟩

/-- C3, counterexample: for a dataset column literally named quote-nan-quote,
the whole-query sentinel replacement of line 226 rewrites the executed
column list, so the statement's column list no longer names the dataset's
column: the executed statement is `INSERT INTO backtick-t (backtick NULL
backtick) VALUES ...` and the faithful column-list head is not a prefix of
it. -/
theorem c3_insert_counterexample :
    insertRowQuery "t".toList [sq :: "nan".toList ++ [sq]] ["1".toList] =
      "INSERT INTO `t` (`NULL`) VALUES (".toList ++ (sq :: "1".toList)
        ++ (sq :: ");".toList) ∧
    (("INSERT INTO `t` (`".toList ++ (sq :: "nan".toList ++ [sq])
        ++ "`) VALUES (".toList).isPrefixOf
      (insertRowQuery "t".toList [sq :: "nan".toList ++ [sq]] ["1".toList]))
      = false := by
  decide

/-- C3, amended: for every tabular dataset whose table name and column names
contain no single quote, `insert_table` builds exactly one INSERT statement
per row, in row order, and each statement opens with the column list naming
all dataset columns, backtick-quoted, in dataset column order. -/
theorem c3_insert_per_row (t : Str) (cols : List Str) (rows : List (List Str))
    (ht : sq ∉ t) (hcols : ∀ c ∈ cols, sq ∉ c) :
    (insertQueries t cols rows).length = rows.length ∧
    ∀ (i : Nat) (r : List Str), rows[i]? = some r →
      (insertQueries t cols rows)[i]? =
        some ("INSERT INTO `".toList ++ t ++ "` ".toList ++ colsClause cols
          ++ " VALUES ".toList ++ '(' :: replaceNone (replaceNan (valsTail r))) := by
  constructor
  · simp [insertQueries]
  · intro i r hr
    simp only [insertQueries, List.getElem?_map, hr, Option.map_some']
    congr 1
    unfold insertRowQuery insertRowRaw replaceNan replaceNone
    rw [replaceL_append_sep sq ("nan".toList ++ [sq]) "NULL".toList '('
        (by decide) (insertHead t cols) (valsTail r),
      replaceL_append_sep sq ("None".toList ++ [sq]) "NULL".toList '('
        (by decide) _ _,
      replaceL_id sq ("nan".toList ++ [sq]) "NULL".toList (insertHead t cols)
        (sq_not_mem_insertHead t cols ht hcols),
      replaceL_id sq ("None".toList ++ [sq]) "NULL".toList (insertHead t cols)
        (sq_not_mem_insertHead t cols ht hcols)]
    rfl

/-- C3, witness at a one-column, one-row dataset. -/
theorem c3_insert_per_row_witness :
    (insertQueries "t".toList ["a".toList] [["1".toList]]).length = 1 ∧
    (insertQueries "t".toList ["a".toList] [["1".toList]])[0]? =
      some ("INSERT INTO `".toList ++ "t".toList ++ "` ".toList
        ++ colsClause ["a".toList] ++ " VALUES ".toList
        ++ '(' :: replaceNone (replaceNan (valsTail ["1".toList]))) :=
  ⟨(c3_insert_per_row "t".toList ["a".toList] [["1".toList]]
      (by decide) (by decide)).1,
    (c3_insert_per_row "t".toList ["a".toList] [["1".toList]]
      (by decide) (by decide)).2 0 ["1".toList] rfl⟩

/-- C4: `execute_sql_file` splits the file text on the semicolon, removes
every newline and tab from each candidate, discards candidates whose
stripped length is below 5, executes the rest in file order in one
connection scope, and commits exactly once, after all of them. -/
theorem c4_sql_file_split (sql : Str) :
    sqlFileCommands sql = sqlFileCommandsSpec sql ∧
    sqlFileTrace sql =
      (sqlFileCommandsSpec sql).map Action.exec ++ [Action.commit] := by
  have h : sqlFileCommands sql = sqlFileCommandsSpec sql := by
    unfold sqlFileCommands sqlFileCommandsSpec
    apply List.filter_congr
    intro c _
    rw [decide_eq_decide]
    omega
  exact ⟨h, by unfold sqlFileTrace; rw [h]⟩

/-- C5: in `create_db` and `create_table` with `drop=true`, any error of the
DROP statement is suppressed and both statements are still attempted, while
the outcome of the run is exactly the outcome of the CREATE statement, so an
error there propagates and nothing else is suppressed. -/
theorem c5_drop_suppression {E : Type} (res : Str → Option E) (n t : Str)
    (defs : List (Str × Str)) :
    (createDbRun res n true).2 = res (createDbSQL n) ∧
    (createDbRun res n true).1 = [dropDbSQL n, createDbSQL n] ∧
    (createTableRun res t defs true).2 = res (createTableSQL t defs) ∧
    (createTableRun res t defs true).1 =
      [dropTableSQL t, createTableSQL t defs] := by
  unfold createDbRun createTableRun
  cases hd : res (dropDbSQL n) <;> cases hc : res (createDbSQL n) <;>
    cases hdt : res (dropTableSQL t) <;>
      cases hct : res (createTableSQL t defs) <;>
        simp [runStmts, hd, hc, hdt, hct]

/-- C6: for every dataset value whose stringified form is exactly `nan` or
`None`, the VALUES tuple of the generated insert statement carries the
unquoted keyword NULL in that value's position: the statement decomposes
into one chunk per value and the chunk at that position is `NULL`. -/
theorem c6_null_sentinels (t : Str) (cols : List Str) (row : List Str)
    (j : Nat) (v : Str) (hj : row[j]? = some v)
    (hv : v = "nan".toList ∨ v = "None".toList) :
    insertRowQuery t cols row =
      replaceNone (replaceNan (insertHead t cols)) ++
        '(' :: (interc [','] (row.map renderChunk) ++ ')' :: [';']) ∧
    (row.map renderChunk)[j]? = some "NULL".toList := by
  have hrow : row ≠ [] := by
    intro h
    subst h
    simp at hj
  refine ⟨insertRowQuery_decomp t cols row hrow, ?_⟩
  rw [List.getElem?_map, hj, Option.map_some']
  congr 1
  rcases hv with h | h <;> subst h <;> decide

/-- C6, witness at the row `[nan, x]`. -/
theorem c6_null_sentinels_witness :
    (["nan".toList, "x".toList] : List Str)[0]? = some "nan".toList ∧
    insertRowQuery "t".toList ["a".toList, "b".toList]
        ["nan".toList, "x".toList] =
      replaceNone (replaceNan (insertHead "t".toList ["a".toList, "b".toList])) ++
        '(' :: (interc [',']
          ((["nan".toList, "x".toList] : List Str).map renderChunk)
          ++ ')' :: [';']) ∧
    ((["nan".toList, "x".toList] : List Str).map renderChunk)[0]? =
      some "NULL".toList := by
  refine ⟨by decide, ?_, ?_⟩
  · exact (c6_null_sentinels "t".toList ["a".toList, "b".toList]
      ["nan".toList, "x".toList] 0 "nan".toList (by decide) (Or.inl rfl)).1
  · exact (c6_null_sentinels "t".toList ["a".toList, "b".toList]
      ["nan".toList, "x".toList] 0 "nan".toList (by decide) (Or.inl rfl)).2

/-- C7: `delete_id` on a list of k identifiers issues exactly k DELETE
statements, one per identifier in order, each delegated to `delete_where`
with an equality condition on the id column; with the source default the id
column is `id`. -/
theorem c7_delete_id_list (ids : List PyScalar) (t idCol : Str) :
    (deleteIdStatements (.list ids) t idCol).length = ids.length ∧
    (∀ (i : Nat) (v : PyScalar), ids[i]? = some v →
      (deleteIdStatements (.list ids) t idCol)[i]? =
        some (deleteWhereSQL (deleteIdCond idCol (pyStr v)) t)) ∧
    deleteIdStatements (.list ids) t "id".toList =
      ids.map (fun v => deleteWhereSQL (deleteIdCond "id".toList (pyStr v)) t) := by
  refine ⟨by simp [deleteIdStatements, toIdList], ?_, rfl⟩
  intro i v hv
  simp [deleteIdStatements, toIdList, List.getElem?_map, hv]

/-- C7, witness at the identifier list `[10, x]`. -/
theorem c7_delete_id_list_witness :
    (deleteIdStatements (.list [.int 10, .str "x".toList])
        "files".toList "id".toList).length = 2 ∧
    (deleteIdStatements (.list [.int 10, .str "x".toList])
        "files".toList "id".toList)[0]? =
      some (deleteWhereSQL (deleteIdCond "id".toList (pyStr (.int 10)))
        "files".toList) :=
  ⟨(c7_delete_id_list [.int 10, .str "x".toList] "files".toList "id".toList).1,
    (c7_delete_id_list [.int 10, .str "x".toList] "files".toList
      "id".toList).2.1 0 (.int 10) rfl⟩

/-- C8: `query_sql` on a statement matching zero rows returns a frame with
zero rows (and no derivable column headers, hence none), rather than an
error: the result constructor is total. -/
theorem c8_query_empty (keys : List Str) :
    querySqlResult keys [] = ⟨[], []⟩ := by
  simp [querySqlResult]

/-- C9: `update_where` executes exactly the statement
`UPDATE backtick-table SET backtick-column = quoted-newValue WHERE condition`
with the new value wrapped in single quotes and embedded quotes not doubled,
unlike the insert path's escaping. -/
theorem c9_update_where_shape (cond t col v : Str) :
    updateWhereSQL cond t col v =
      "UPDATE `".toList ++ t ++ "` SET `".toList ++ col ++ "` = ".toList
        ++ (sq :: v) ++ (sq :: " WHERE ".toList) ++ cond ∧
    updateWhereSQL "w".toList "t".toList "c".toList
        ("a".toList ++ sq :: "b".toList) =
      "UPDATE `t` SET `c` = ".toList ++ (sq :: "a".toList ++ sq :: "b".toList)
        ++ (sq :: " WHERE w".toList) ∧
    (updateWhereSQL "w".toList "t".toList "c".toList
        ("a".toList ++ sq :: "b".toList) ==
      updateWhereSQL "w".toList "t".toList "c".toList
        (escSQ ("a".toList ++ sq :: "b".toList))) = false := by
  exact ⟨rfl, by decide, by decide⟩

/-- C10: `delete_id` given a string treats it as one identifier, issuing
exactly one DELETE statement for the whole string, not one per character. -/
theorem c10_delete_id_string (s t idCol : Str) :
    deleteIdStatements (.scalar (.str s)) t idCol =
      [deleteWhereSQL (deleteIdCond idCol s) t] ∧
    (deleteIdStatements (.scalar (.str "abc".toList))
        "files".toList "id".toList).length = 1 :=
  ⟨rfl, rfl⟩

end MmpyTools

